import Mathlib

set_option autoImplicit false

/-!
A shallow embedding of src/page_table.C (PageTable construction, activation
and page-fault handling for a 32-bit two-level paging scheme), together with
proofs about it.

Physical memory is modelled frame-granularly: a map from frame number and
word index to the stored 32-bit word.  Every memory access performed by the
code is a word access at a page-aligned base (the page directory, a second
level page table, or the recursive-mapping window), so this view is exact.

The two frame pools (ContFramePool, external to this repository) are
modelled as functions from the number of get_frames(1) calls made so far to
the frame number returned by that call; 0 is the failure sentinel the code
checks for.  The machine state carries one call counter per pool.

The writes the fault handler performs through the recursive-mapping window
at 0xFFC00000 are translated by the hardware two-level page walk against
CR3 (translateAddr below); a window access whose translation is not present
would itself page-fault (a nested fault, outside this model) and is
modelled as leaving memory unchanged.  The accesses through the raw
page_directory and page-table pointers are physical accesses, exactly as
the code relies on identity mapping for them.
-/

/-- Modelled from the spec: the page/frame size of 4096 bytes (spec §3);
the constant PAGE_SIZE is declared in the header page_table.H, which is not
in the repository snapshot. -/
def PAGE_SIZE : Nat := 4096

/-- Modelled from the spec: 1024 entries per directory or table (spec §3);
the constant ENTRIES_PER_PAGE is declared in the header page_table.H, which
is not in the repository snapshot. -/
def ENTRIES_PER_PAGE : Nat := 1024

/-- Physical memory: PMem f i is the 32-bit word at byte address
f * PAGE_SIZE + 4 * i (entry i of the paging structure in frame f). -/
def PMem : Type := Nat → Nat → Nat

/-- Write word i of frame f. -/
def wr (mem : PMem) (f i v : Nat) : PMem :=
  fun f' i' => if f' = f ∧ i' = i then v else mem f' i'

/-- The shape of the initialization for-loops: write words a, a+1, ...,
a+n-1 of frame f with values v a, ..., v (a+n-1). -/
def writeFrom (mem : PMem) (f a : Nat) (v : Nat → Nat) : Nat → PMem
  | 0 => mem
  | n + 1 => wr (writeFrom mem f a v n) f (a + n) (v (a + n))

/-- The identity-map loop of the constructor (src/page_table.C lines 58-62):
for n iterations starting at index i, write first_page_table[i] = address
with the 0x3 flags, advancing address by PAGE_SIZE each iteration. -/
def idFill (mem : PMem) (f : Nat) : Nat → Nat → Nat → PMem
  | _, _, 0 => mem
  | i, address, n + 1 => idFill (wr mem f i (address ||| 0x3)) f (i + 1) (address + PAGE_SIZE) n

/-- The machine together with the process-wide paging state of PageTable:
physical memory, the control registers CR0/CR2/CR3, current_page_table
(modelled by its page_directory address; none is the nullptr state),
paging_enabled, and the get_frames call counters of the kernel and process
pools. -/
structure Mach where
  mem : PMem
  cr0 : Nat
  cr2 : Nat
  cr3 : Nat
  current : Option Nat
  paging_enabled : Nat
  kCount : Nat
  pCount : Nat

/-- Result of running the constructor PageTable::PageTable(): the machine,
the value of the page_directory member (an address; 0 is the null pointer),
and whether the early return at the first-page-table allocation check
(lines 46-49) was taken. -/
structure CtorResult where
  m : Mach
  page_directory : Nat
  earlyReturn : Bool

/-- PageTable::PageTable() (src/page_table.C lines 28-76), with kAlloc the
kernel pool's get_frames(1) stream.  Note that the directory frame
allocation at line 31 is not checked against the failure sentinel: if it
returns 0 the constructor continues with page_directory equal to the null
pointer (address 0).  Only the first-page-table allocation is checked. -/
def constructPageTable (kAlloc : Nat → Nat) (m : Mach) : CtorResult :=
  let page_directory_frame := kAlloc m.kCount
  let page_directory_address := page_directory_frame * PAGE_SIZE
  let mem1 := writeFrom m.mem (page_directory_address / PAGE_SIZE) 0 (fun _ => 0) ENTRIES_PER_PAGE
  let first_page_table_frame := kAlloc (m.kCount + 1)
  if first_page_table_frame = 0 then
    { m := { m with mem := mem1, kCount := m.kCount + 2 },
      page_directory := page_directory_address, earlyReturn := true }
  else
    let first_page_table_address := first_page_table_frame * PAGE_SIZE
    let mem2 := idFill mem1 (first_page_table_address / PAGE_SIZE) 0 0 1024
    let mem3 := wr mem2 (page_directory_address / PAGE_SIZE) 0 (first_page_table_address ||| 0x3)
    let mem4 := writeFrom mem3 (page_directory_address / PAGE_SIZE) 1 (fun _ => 0x2) 1023
    let mem5 := wr mem4 (page_directory_address / PAGE_SIZE) (ENTRIES_PER_PAGE - 1)
                  (page_directory_address ||| 0x3)
    { m := { m with mem := mem5, kCount := m.kCount + 2 },
      page_directory := page_directory_address, earlyReturn := false }

/-- PageTable::load() (lines 82-91): refuses a null page_directory;
otherwise writes CR3 and records this table as the current one. -/
def load (page_directory : Nat) (m : Mach) : Mach :=
  if page_directory = 0 then m
  else { m with cr3 := page_directory, current := some page_directory }

/-- PageTable::enable_paging() (lines 93-100): OR bit 31 into CR0 and set
the process-wide paging_enabled flag. -/
def enable_paging (m : Mach) : Mach :=
  { m with cr0 := m.cr0 ||| 0x80000000, paging_enabled := 1 }

/-- The directory index of a faulting address: its top 10 bits
(line 116 of src/page_table.C). -/
def pdIndexOf (a : Nat) : Nat := (a >>> 22) &&& 0x3FF

/-- The table index of a faulting address: its bits 12-21
(line 117 of src/page_table.C). -/
def ptIndexOf (a : Nat) : Nat := (a >>> 12) &&& 0x3FF

/-- Modelled from the spec (§3, §6): the hardware two-level page walk.
Returns the physical byte address a virtual address maps to, or none when
one of the two levels is not present (which raises a page fault).  The
next-level base is bits 12-31 of an entry, as in line 182 of the code. -/
def translateAddr (mem : PMem) (dirFrame vaddr : Nat) : Option Nat :=
  if mem dirFrame (pdIndexOf vaddr) &&& 0x1 = 1 then
    if mem ((mem dirFrame (pdIndexOf vaddr) &&& 0xFFFFF000) / PAGE_SIZE)
         (ptIndexOf vaddr) &&& 0x1 = 1 then
      some ((mem ((mem dirFrame (pdIndexOf vaddr) &&& 0xFFFFF000) / PAGE_SIZE)
          (ptIndexOf vaddr) &&& 0xFFFFF000) + vaddr % PAGE_SIZE)
    else none
  else none

/-- A word write through a virtual address while paging is on: the address
is translated by the hardware walk against the directory in CR3.  An
unmapped address would itself page-fault (nested fault, outside this
model); such a write is modelled as leaving memory unchanged. -/
def vwr (mem : PMem) (dirFrame vaddr v : Nat) : PMem :=
  match translateAddr mem dirFrame vaddr with
  | some p => wr mem (p / PAGE_SIZE) (p % PAGE_SIZE / 4) v
  | none => mem

/-- The zeroing loop of the directory-miss path (lines 157-160): n word
writes of 0 through the recursive-mapping window starting at base. -/
def zeroNewTable (mem : PMem) (dirFrame base : Nat) : Nat → PMem
  | 0 => mem
  | n + 1 => vwr (zeroNewTable mem dirFrame base n) dirFrame (base + 4 * n) 0

/-- Which return of PageTable::handle_fault was taken.  Each constructor
corresponds to the diagnostic message printed on that path. -/
inductive FaultOutcome where
  | noTable
  | kernelAllocFailed
  | procAllocFailed
  | handled
deriving DecidableEq

/-- Result of PageTable::handle_fault: the machine after the call and the
return path taken. -/
structure FaultResult where
  m : Mach
  outcome : FaultOutcome

/-- PageTable::handle_fault (src/page_table.C lines 103-214).  The REGS
argument _r is ignored, exactly as in the source; the faulting address is
read from CR2 (line 112).  The mask 0xFFFFF000 is the 32-bit value of
~0xFFF at line 182.  The two writes of the directory-miss path that go
through the recursive-mapping window pointer (lines 157-160 and 168) are
translated against CR3; the accesses through the page_directory pointer
and the page-table pointer of the directory-hit path are physical. -/
def handle_fault (kAlloc pAlloc : Nat → Nat) (_r : Nat) (m : Mach) : FaultResult :=
  match m.current with
  | none => { m := m, outcome := .noTable }
  | some dirAddr =>
    let faulting_address := m.cr2
    let pd_index := pdIndexOf faulting_address
    let pt_index := ptIndexOf faulting_address
    let page_directory_entry := m.mem (dirAddr / PAGE_SIZE) pd_index
    if page_directory_entry &&& 0x1 = 0 then
      let new_page_table_frame := kAlloc m.kCount
      let m1 : Mach := { m with kCount := m.kCount + 1 }
      if new_page_table_frame = 0 then
        { m := m1, outcome := .kernelAllocFailed }
      else
        let new_page_table_address := new_page_table_frame * PAGE_SIZE
        let mem2 := wr m1.mem (dirAddr / PAGE_SIZE) pd_index (new_page_table_address ||| 0x3)
        let winBase := 0xFFC00000 ||| (pd_index <<< 12)
        let mem3 := zeroNewTable mem2 (m1.cr3 / PAGE_SIZE) winBase ENTRIES_PER_PAGE
        let entry_frame := pAlloc m1.pCount
        let frame_address := PAGE_SIZE * entry_frame
        let mem4 := vwr mem3 (m1.cr3 / PAGE_SIZE) (winBase + 4 * pt_index) (frame_address ||| 0x3)
        { m := { m1 with mem := mem4, pCount := m1.pCount + 1 }, outcome := .handled }
    else
      let page_table_address := page_directory_entry &&& 0xFFFFF000
      let page_table_entry := m.mem (page_table_address / PAGE_SIZE) pt_index
      if page_table_entry &&& 0x1 = 0 then
        let new_frame := pAlloc m.pCount
        let m1 : Mach := { m with pCount := m.pCount + 1 }
        if new_frame = 0 then
          { m := m1, outcome := .procAllocFailed }
        else
          let new_frame_address := new_frame * PAGE_SIZE
          { m := { m1 with
                    mem := wr m1.mem (page_table_address / PAGE_SIZE) pt_index
                            (new_frame_address ||| 0x3) },
            outcome := .handled }
      else
        { m := m, outcome := .handled }

/-- The entry bit convention of the design (spec §6): bit 2 (privilege) is
always clear — supervisor-only — and a present entry (bit 0 set) always
has the writable bit (bit 1) set.  Bit j of v is v / 2 ^ j % 2. -/
def goodEntry (v : Nat) : Prop := v / 4 % 2 = 0 ∧ (v % 2 = 1 → v / 2 % 2 = 1)

instance (v : Nat) : Decidable (goodEntry v) := by
  unfold goodEntry; infer_instance

/-- A machine with zeroed memory and registers, used to instantiate the
universally quantified theorems on concrete inputs. -/
def mZero : Mach :=
  { mem := fun _ _ => 0, cr0 := 0, cr2 := 0, cr3 := 0, current := none,
    paging_enabled := 0, kCount := 0, pCount := 0 }

/-- A concrete machine in the state the constructor leaves behind for
directory frame 2 (only the recursive slot matters to the theorems that
use it), about to fault on address 0x00C01000 (directory index 3, table
index 1). -/
def mA : Mach :=
  { mem := fun f i => if f = 2 ∧ i = 1023 then (4096 * 2 ||| 0x3) else 0,
    cr0 := 0, cr2 := 0x00C01000, cr3 := 4096 * 2, current := some (4096 * 2),
    paging_enabled := 1, kCount := 2, pCount := 0 }

/-- A kernel pool that always hands out frame 7. -/
def kPool7 : Nat → Nat := fun _ => 7

/-- A process pool that always hands out frame 9. -/
def pPool9 : Nat → Nat := fun _ => 9

/-- A pool that is exhausted from the start: every request returns the
failure sentinel 0. -/
def poolFail : Nat → Nat := fun _ => 0

/-- A kernel pool whose first request fails and whose later requests
return frame 7: makes the unchecked directory-frame allocation of the
constructor fail while the checked first-table allocation succeeds. -/
def kPoolFirstFail : Nat → Nat := fun n => if n = 0 then 0 else 7

/-- A kernel pool whose first request returns frame 5 and whose second
request fails: makes the checked first-table allocation fail. -/
def kPoolSecondFail : Nat → Nat := fun n => if n = 0 then 5 else 0

/-- A kernel pool returning frame 5 then frame 7: a successful
construction (directory frame 5, first table frame 7). -/
def kPool57 : Nat → Nat := fun n => if n = 0 then 5 else 7

/-! ### Bit-arithmetic helper lemmas -/

theorem wr_spec (mem : PMem) (f i v f' i' : Nat) :
    wr mem f i v f' i' = if f' = f ∧ i' = i then v else mem f' i' := rfl

theorem CtorResult_m (M : Mach) (p : Nat) (e : Bool) : (CtorResult.mk M p e).m = M := rfl

theorem mulPS_div (q : Nat) : q * PAGE_SIZE / PAGE_SIZE = q := by
  unfold PAGE_SIZE
  omega

theorem FaultResult_m (M : Mach) (o : FaultOutcome) : (FaultResult.mk M o).m = M := rfl

theorem FaultResult_outcome (M : Mach) (o : FaultOutcome) :
    (FaultResult.mk M o).outcome = o := rfl

theorem Mach_mem (a : PMem) (b c d : Nat) (e : Option Nat) (f g h : Nat) :
    (Mach.mk a b c d e f g h).mem = a := rfl

theorem Mach_cr0 (a : PMem) (b c d : Nat) (e : Option Nat) (f g h : Nat) :
    (Mach.mk a b c d e f g h).cr0 = b := rfl

theorem Mach_cr2 (a : PMem) (b c d : Nat) (e : Option Nat) (f g h : Nat) :
    (Mach.mk a b c d e f g h).cr2 = c := rfl

theorem Mach_cr3 (a : PMem) (b c d : Nat) (e : Option Nat) (f g h : Nat) :
    (Mach.mk a b c d e f g h).cr3 = d := rfl

theorem Mach_current (a : PMem) (b c d : Nat) (e : Option Nat) (f g h : Nat) :
    (Mach.mk a b c d e f g h).current = e := rfl

theorem Mach_paging (a : PMem) (b c d : Nat) (e : Option Nat) (f g h : Nat) :
    (Mach.mk a b c d e f g h).paging_enabled = f := rfl

theorem Mach_kCount (a : PMem) (b c d : Nat) (e : Option Nat) (f g h : Nat) :
    (Mach.mk a b c d e f g h).kCount = g := rfl

theorem Mach_pCount (a : PMem) (b c d : Nat) (e : Option Nat) (f g h : Nat) :
    (Mach.mk a b c d e f g h).pCount = h := rfl

theorem testBit_two_pow_mul_add (k a b : Nat) (hb : b < 2 ^ k) (j : Nat) :
    (2 ^ k * a + b).testBit j = if j < k then b.testBit j else a.testBit (j - k) := by
  rcases Nat.lt_or_ge j k with hj | hj
  · rw [if_pos hj]
    have hk : 2 ^ k = 2 ^ j * 2 ^ (k - j) := by
      rw [← pow_add]; congr 1; omega
    have hsplit : 2 ^ k * a + b = 2 ^ j * (2 ^ (k - j) * a) + b := by
      rw [hk]; ring
    have hdvd : (2 ^ (k - j) * a) % 2 = 0 := by
      have h2 : (2 : Nat) ∣ 2 ^ (k - j) * a :=
        Dvd.dvd.mul_right (dvd_pow_self 2 (by omega)) a
      omega
    have hd : (2 ^ j * (2 ^ (k - j) * a) + b) / 2 ^ j = 2 ^ (k - j) * a + b / 2 ^ j :=
      Nat.mul_add_div (Nat.two_pow_pos j) _ _
    have hmod : (2 ^ (k - j) * a + b / 2 ^ j) % 2 = b / 2 ^ j % 2 := by omega
    rw [hsplit, Nat.testBit_to_div_mod, Nat.testBit_to_div_mod, hd, hmod]
  · rw [if_neg (by omega)]
    have h1 : (2 ^ k * a + b) / 2 ^ k = a := by
      rw [Nat.mul_add_div (Nat.two_pow_pos k), Nat.div_eq_of_lt hb, Nat.add_zero]
    have hdiv : (2 ^ k * a + b) / 2 ^ j = a / 2 ^ (j - k) := by
      have h2 : (2 ^ k * a + b) / 2 ^ j = ((2 ^ k * a + b) / 2 ^ k) / 2 ^ (j - k) := by
        rw [Nat.div_div_eq_div_mul, ← pow_add]; congr 2; omega
      rw [h2, h1]
    rw [Nat.testBit_to_div_mod, Nat.testBit_to_div_mod, hdiv]

theorem lor_two_pow_mul (k a b : Nat) (hb : b < 2 ^ k) :
    2 ^ k * a ||| b = 2 ^ k * a + b := by
  apply Nat.eq_of_testBit_eq
  intro j
  rw [Nat.testBit_or, testBit_two_pow_mul_add k a b hb]
  have ha : (2 ^ k * a).testBit j = if j < k then false else a.testBit (j - k) := by
    have h0 := testBit_two_pow_mul_add k a 0 (Nat.two_pow_pos k) j
    simpa using h0
  rcases Nat.lt_or_ge j k with hj | hj
  · rw [ha, if_pos hj, if_pos hj, Bool.false_or]
  · rw [ha, if_neg (by omega), if_neg (by omega)]
    have hbj : b.testBit j = false := by
      apply Nat.testBit_lt_two_pow
      exact lt_of_lt_of_le hb (Nat.pow_le_pow_right (by omega) hj)
    rw [hbj, Bool.or_false]

/-- Setting the low flag bits of a page-aligned address is plain addition. -/
theorem page_or3 (f : Nat) : f * PAGE_SIZE ||| 0x3 = 4096 * f + 3 := by
  have h : f * PAGE_SIZE = 2 ^ 12 * f := by unfold PAGE_SIZE; ring
  rw [h, lor_two_pow_mul 12 f 3 (by norm_num)]
  norm_num

/-- Bits 12-31 of a 12-bit-aligned value plus a sub-page offset: the
mask ~0xFFF keeps the frame base, truncated to 20 frame bits. -/
theorem and_high_mask (f r : Nat) (hr : r < 4096) :
    (4096 * f + r) &&& 0xFFFFF000 = 4096 * (f % 1048576) := by
  apply Nat.eq_of_testBit_eq
  intro j
  rw [Nat.testBit_and]
  have hmb : (0xFFFFF000 : Nat).testBit j = if j < 12 then false else decide (j - 12 < 20) := by
    have hm : (0xFFFFF000 : Nat) = 2 ^ 12 * (2 ^ 20 - 1) + 0 := by norm_num
    rw [hm, testBit_two_pow_mul_add 12 (2 ^ 20 - 1) 0 (Nat.two_pow_pos 12) j]
    rcases Nat.lt_or_ge j 12 with hj | hj
    · rw [if_pos hj, if_pos hj, Nat.zero_testBit]
    · rw [if_neg (by omega), if_neg (by omega), Nat.testBit_two_pow_sub_one]
  have hlh : (4096 * f + r).testBit j = if j < 12 then r.testBit j else f.testBit (j - 12) := by
    have h12 : (4096 : Nat) * f + r = 2 ^ 12 * f + r := by norm_num
    rw [h12, testBit_two_pow_mul_add 12 f r (by omega) j]
  have hrh : (4096 * (f % 1048576)).testBit j
      = if j < 12 then false else (f % 1048576).testBit (j - 12) := by
    have h12 : (4096 : Nat) * (f % 1048576) = 2 ^ 12 * (f % 1048576) + 0 := by norm_num
    rw [h12, testBit_two_pow_mul_add 12 (f % 1048576) 0 (Nat.two_pow_pos 12) j]
    rcases Nat.lt_or_ge j 12 with hj | hj
    · rw [if_pos hj, if_pos hj, Nat.zero_testBit]
    · rw [if_neg (by omega), if_neg (by omega)]
  rw [hmb, hlh, hrh]
  rcases Nat.lt_or_ge j 12 with hj | hj
  · simp [hj]
  · rw [if_neg (by omega), if_neg (by omega), if_neg (by omega)]
    have h20 : (1048576 : Nat) = 2 ^ 20 := by norm_num
    rw [h20, Nat.testBit_mod_two_pow]
    cases h : f.testBit (j - 12) <;> simp [h, Bool.and_comm]

theorem pdIndexOf_eq (a : Nat) : pdIndexOf a = a / 4194304 % 1024 := by
  unfold pdIndexOf
  have h1 : (0x3FF : Nat) = 2 ^ 10 - 1 := by norm_num
  rw [Nat.shiftRight_eq_div_pow, h1, Nat.and_pow_two_sub_one_eq_mod]

theorem ptIndexOf_eq (a : Nat) : ptIndexOf a = a / 4096 % 1024 := by
  unfold ptIndexOf
  have h1 : (0x3FF : Nat) = 2 ^ 10 - 1 := by norm_num
  rw [Nat.shiftRight_eq_div_pow, h1, Nat.and_pow_two_sub_one_eq_mod]

theorem pdIndexOf_lt (a : Nat) : pdIndexOf a < 1024 := by
  rw [pdIndexOf_eq]; omega

theorem ptIndexOf_lt (a : Nat) : ptIndexOf a < 1024 := by
  rw [ptIndexOf_eq]; omega

/-- The window base used by the directory-miss path, as plain arithmetic. -/
theorem winBase_eq (pdi : Nat) (h : pdi < 1024) :
    0xFFC00000 ||| (pdi <<< 12) = 0xFFC00000 + 4096 * pdi := by
  have h1 : (0xFFC00000 : Nat) = 2 ^ 22 * 1023 := by norm_num
  have h2 : pdi <<< 12 = pdi * 2 ^ 12 := Nat.shiftLeft_eq pdi 12
  have h3 : pdi * 2 ^ 12 < 2 ^ 22 := by norm_num; omega
  rw [h1, h2, lor_two_pow_mul 22 1023 (pdi * 2 ^ 12) h3]
  norm_num
  ring

/-- Decoding a window address: directory index 1023 (the recursive slot),
table index pdi, page offset c. -/
theorem win_decode (pdi c : Nat) (h1 : pdi < 1024) (h2 : c < 4096) :
    pdIndexOf (0xFFC00000 + 4096 * pdi + c) = 1023
    ∧ ptIndexOf (0xFFC00000 + 4096 * pdi + c) = pdi
    ∧ (0xFFC00000 + 4096 * pdi + c) % PAGE_SIZE = c := by
  unfold PAGE_SIZE
  rw [pdIndexOf_eq, ptIndexOf_eq]
  omega

/-- A present+writable entry passes the present-bit check of the code. -/
theorem entry_present (x : Nat) : (4096 * x + 3) &&& 0x1 = 1 := by
  rw [show (0x1 : Nat) = 1 from rfl, Nat.and_one_is_mod]
  omega

/-! ### Loop and window-write characterizations -/

theorem writeFrom_spec (mem : PMem) (f a : Nat) (v : Nat → Nat) :
    ∀ n f' i', writeFrom mem f a v n f' i'
      = if f' = f ∧ a ≤ i' ∧ i' < a + n then v i' else mem f' i' := by
  intro n
  induction n with
  | zero =>
    intro f' i'
    show mem f' i' = _
    rw [if_neg (by rintro ⟨_, h2, h3⟩; omega)]
  | succ n ih =>
    intro f' i'
    show wr (writeFrom mem f a v n) f (a + n) (v (a + n)) f' i' = _
    rw [wr_spec, ih f' i']
    split_ifs <;> first | rfl | (exfalso; omega) | (congr 1; omega)

theorem idFill_spec (f : Nat) :
    ∀ n mem i address f' j, idFill mem f i address n f' j
      = if f' = f ∧ i ≤ j ∧ j < i + n
        then (address + (j - i) * PAGE_SIZE) ||| 0x3 else mem f' j := by
  intro n
  induction n with
  | zero =>
    intro mem i address f' j
    show mem f' j = _
    rw [if_neg (by rintro ⟨_, h2, h3⟩; omega)]
  | succ n ih =>
    intro mem i address f' j
    show idFill (wr mem f i (address ||| 0x3)) f (i + 1) (address + PAGE_SIZE) n f' j = _
    rw [ih, wr_spec]
    simp only [PAGE_SIZE]
    split_ifs <;> first | rfl | (exfalso; omega) | (congr 1; omega)

/-- A window write whose translation hits present entries: it lands in the
frame named by the page-table entry (bits 12-31). -/
theorem vwr_mapped (mem : PMem) (df va v d k : Nat)
    (hpde : mem df (pdIndexOf va) = 4096 * d + 3)
    (hpte : mem (d % 1048576) (ptIndexOf va) = 4096 * k + 3) :
    vwr mem df va v = wr mem (k % 1048576) (va % 4096 / 4) v := by
  have hdiv : 4096 * (d % 1048576) / PAGE_SIZE = d % 1048576 := by
    unfold PAGE_SIZE; omega
  have htrans : translateAddr mem df va
      = some (4096 * (k % 1048576) + va % PAGE_SIZE) := by
    unfold translateAddr
    rw [hpde]
    simp only [entry_present, and_high_mask d 3 (by omega), hdiv, if_true, hpte,
      and_high_mask k 3 (by omega)]
  have hfr : (4096 * (k % 1048576) + va % PAGE_SIZE) / PAGE_SIZE = k % 1048576 := by
    unfold PAGE_SIZE; omega
  have hwd : (4096 * (k % 1048576) + va % PAGE_SIZE) % PAGE_SIZE / 4 = va % 4096 / 4 := by
    unfold PAGE_SIZE; omega
  unfold vwr
  rw [htrans]
  show wr mem ((4096 * (k % 1048576) + va % PAGE_SIZE) / PAGE_SIZE)
      ((4096 * (k % 1048576) + va % PAGE_SIZE) % PAGE_SIZE / 4) v = _
  rw [hfr, hwd]

/-- A window write whose directory entry is absent: nested fault, no write. -/
theorem vwr_pde_absent (mem : PMem) (df va v : Nat)
    (h : ¬ mem df (pdIndexOf va) &&& 0x1 = 1) :
    vwr mem df va v = mem := by
  have htrans : translateAddr mem df va = none := by
    unfold translateAddr
    rw [if_neg h]
  unfold vwr
  rw [htrans]

/-- A window write whose page-table entry is absent: nested fault, no write. -/
theorem vwr_pte_absent (mem : PMem) (df va v d : Nat)
    (hpde : mem df (pdIndexOf va) = 4096 * d + 3)
    (h : ¬ mem (d % 1048576) (ptIndexOf va) &&& 0x1 = 1) :
    vwr mem df va v = mem := by
  have hdiv : 4096 * (d % 1048576) / PAGE_SIZE = d % 1048576 := by
    unfold PAGE_SIZE; omega
  have htrans : translateAddr mem df va = none := by
    unfold translateAddr
    rw [hpde]
    simp only [entry_present, and_high_mask d 3 (by omega), hdiv, if_true]
    rw [if_neg h]
  unfold vwr
  rw [htrans]

/-- The zeroing loop of the miss path, in the intended configuration: the
recursive slot maps the directory (frame df) onto itself and the directory
entry at pdi holds the freshly allocated table frame k, a frame other than
the directory's.  Then the n window writes zero exactly words 0..n-1 of
frame k (of its 20 low bits, as the hardware walk sees it). -/
theorem zeroNewTable_spec (mem : PMem) (df pdi k : Nat)
    (hdf : df < 1048576) (hpdi : pdi < 1024) (hkd : ¬ k % 1048576 = df)
    (hrec : mem df 1023 = 4096 * df + 3)
    (hpde : mem df pdi = 4096 * k + 3) :
    ∀ n, n ≤ 1024 → ∀ f i,
      zeroNewTable mem df (0xFFC00000 + 4096 * pdi) n f i
        = if f = k % 1048576 ∧ i < n then 0 else mem f i := by
  intro n
  induction n with
  | zero =>
    intro _ f i
    have h : ¬(f = k % 1048576 ∧ i < 0) := by rintro ⟨_, h2⟩; omega
    simp [zeroNewTable, h]
  | succ n ih =>
    intro hn f i
    have ihs := ih (by omega)
    show vwr (zeroNewTable mem df (0xFFC00000 + 4096 * pdi) n) df
        (0xFFC00000 + 4096 * pdi + 4 * n) 0 f i = _
    obtain ⟨hd1, hd2, hd3⟩ := win_decode pdi (4 * n) hpdi (by omega)
    have hrec' : zeroNewTable mem df (0xFFC00000 + 4096 * pdi) n df
        (pdIndexOf (0xFFC00000 + 4096 * pdi + 4 * n)) = 4096 * df + 3 := by
      rw [hd1, ihs df 1023, if_neg (by rintro ⟨h1, _⟩; exact hkd h1.symm), hrec]
    have hpte' : zeroNewTable mem df (0xFFC00000 + 4096 * pdi) n (df % 1048576)
        (ptIndexOf (0xFFC00000 + 4096 * pdi + 4 * n)) = 4096 * k + 3 := by
      rw [hd2, Nat.mod_eq_of_lt hdf, ihs df pdi,
        if_neg (by rintro ⟨h1, _⟩; exact hkd h1.symm), hpde]
    rw [vwr_mapped _ _ _ _ df k hrec' hpte', wr_spec]
    have hwd : (0xFFC00000 + 4096 * pdi + 4 * n) % 4096 / 4 = n := by omega
    rw [hwd, ihs f i]
    split_ifs <;> first | rfl | (exfalso; omega)

/-- Preservation of the recursive directory slot by the zeroing loop, with
no assumption on the allocated frame k: even if the pool hands back the
directory frame itself, the loop zeroes directory words 0..pdi and then
the walk finds the directory entry at pdi absent, so no later write — in
particular none to word 1023 — can land in the directory. -/
theorem zeroNewTable_pres (mem : PMem) (df pdi k : Nat)
    (hdf : df < 1048576) (hpdi : pdi < 1023)
    (hrec : mem df 1023 = 4096 * df + 3)
    (hpde : mem df pdi = 4096 * k + 3) :
    ∀ n, n ≤ 1024 →
      zeroNewTable mem df (0xFFC00000 + 4096 * pdi) n df 1023 = 4096 * df + 3
      ∧ (zeroNewTable mem df (0xFFC00000 + 4096 * pdi) n df pdi = 4096 * k + 3
          ∨ zeroNewTable mem df (0xFFC00000 + 4096 * pdi) n df pdi % 2 = 0)
      ∧ (k % 1048576 = df → pdi < n →
          zeroNewTable mem df (0xFFC00000 + 4096 * pdi) n df pdi % 2 = 0) := by
  intro n
  induction n with
  | zero =>
    intro _
    refine ⟨hrec, Or.inl hpde, fun _ h => absurd h (by omega)⟩
  | succ n ih =>
    intro hn
    obtain ⟨ih1, ih2, ih3⟩ := ih (by omega)
    set s := zeroNewTable mem df (0xFFC00000 + 4096 * pdi) n with hs
    have hstep : zeroNewTable mem df (0xFFC00000 + 4096 * pdi) (n + 1)
        = vwr s df (0xFFC00000 + 4096 * pdi + 4 * n) 0 := rfl
    rw [hstep]
    obtain ⟨hd1, hd2, hd3⟩ := win_decode pdi (4 * n) (by omega) (by omega)
    have hrec' : s df (pdIndexOf (0xFFC00000 + 4096 * pdi + 4 * n)) = 4096 * df + 3 := by
      rw [hd1]; exact ih1
    rcases ih2 with hp | hp
    · -- the directory entry at pdi is still the fresh-table entry: the
      -- write lands in frame k % 2^20 at word n
      have hpte' : s (df % 1048576) (ptIndexOf (0xFFC00000 + 4096 * pdi + 4 * n))
          = 4096 * k + 3 := by
        rw [hd2, Nat.mod_eq_of_lt hdf]; exact hp
      have hv := vwr_mapped s df (0xFFC00000 + 4096 * pdi + 4 * n) 0 df k hrec' hpte'
      have hwd : (0xFFC00000 + 4096 * pdi + 4 * n) % 4096 / 4 = n := by omega
      rw [hv, hwd]
      have hnpdi : k % 1048576 = df → ¬ pdi < n := by
        intro hkd hlt
        have := ih3 hkd hlt
        omega
      refine ⟨?_, ?_, ?_⟩
      · rw [wr_spec, if_neg ?_, ih1]
        rintro ⟨hf, hi⟩
        have := hnpdi hf.symm
        omega
      · rw [wr_spec]
        by_cases hc : df = k % 1048576 ∧ pdi = n
        · rw [if_pos hc]; exact Or.inr (by omega)
        · rw [if_neg hc]; exact Or.inl hp
      · intro hkd hlt
        rw [wr_spec]
        by_cases hc : df = k % 1048576 ∧ pdi = n
        · rw [if_pos hc]
        · rw [if_neg hc]
          have hn' : ¬ pdi < n := hnpdi hkd
          exfalso
          apply hc
          exact ⟨hkd.symm, by omega⟩
    · -- the directory entry at pdi has been zeroed: the walk misses, the
      -- window write is a nested fault and does not modify memory
      have habs : ¬ s (df % 1048576) (ptIndexOf (0xFFC00000 + 4096 * pdi + 4 * n))
          &&& 0x1 = 1 := by
        rw [hd2, Nat.mod_eq_of_lt hdf, show (0x1 : Nat) = 1 from rfl,
          Nat.and_one_is_mod]
        omega
      rw [vwr_pte_absent s df (0xFFC00000 + 4096 * pdi + 4 * n) 0 df hrec' habs]
      refine ⟨ih1, Or.inr hp, fun hkd hlt => ?_⟩
      rcases Nat.lt_or_ge pdi n with h | h
      · exact ih3 hkd h
      · exact hp

/-! ### Path equations for handle_fault -/

theorem handle_fault_noTable (kA pA : Nat → Nat) (r : Nat) (m : Mach)
    (h : m.current = none) :
    handle_fault kA pA r m = { m := m, outcome := .noTable } := by
  unfold handle_fault
  rw [h]

theorem handle_fault_missFail (kA pA : Nat → Nat) (r : Nat) (m : Mach) (dirAddr : Nat)
    (hc : m.current = some dirAddr)
    (hmiss : m.mem (dirAddr / PAGE_SIZE) (pdIndexOf m.cr2) &&& 0x1 = 0)
    (hk : kA m.kCount = 0) :
    handle_fault kA pA r m
      = { m := { m with kCount := m.kCount + 1 }, outcome := .kernelAllocFailed } := by
  unfold handle_fault
  rw [hc]
  simp only [hmiss, hk, if_true, if_pos rfl]

theorem handle_fault_miss (kA pA : Nat → Nat) (r : Nat) (m : Mach) (dirAddr : Nat)
    (hc : m.current = some dirAddr)
    (hmiss : m.mem (dirAddr / PAGE_SIZE) (pdIndexOf m.cr2) &&& 0x1 = 0)
    (hk : ¬ kA m.kCount = 0) :
    handle_fault kA pA r m
      = { m := { m with
            mem := vwr (zeroNewTable
                     (wr m.mem (dirAddr / PAGE_SIZE) (pdIndexOf m.cr2)
                       (kA m.kCount * PAGE_SIZE ||| 0x3))
                     (m.cr3 / PAGE_SIZE) (0xFFC00000 ||| (pdIndexOf m.cr2 <<< 12))
                     ENTRIES_PER_PAGE)
                   (m.cr3 / PAGE_SIZE)
                   ((0xFFC00000 ||| (pdIndexOf m.cr2 <<< 12)) + 4 * ptIndexOf m.cr2)
                   (PAGE_SIZE * pA m.pCount ||| 0x3),
            kCount := m.kCount + 1, pCount := m.pCount + 1 },
          outcome := .handled } := by
  unfold handle_fault
  rw [hc]
  simp only [hmiss, hk, if_true, if_false, if_pos rfl, if_neg hk]

theorem handle_fault_hit_alloc (kA pA : Nat → Nat) (r : Nat) (m : Mach) (dirAddr : Nat)
    (hc : m.current = some dirAddr)
    (hhit : ¬ m.mem (dirAddr / PAGE_SIZE) (pdIndexOf m.cr2) &&& 0x1 = 0)
    (hpte : m.mem ((m.mem (dirAddr / PAGE_SIZE) (pdIndexOf m.cr2) &&& 0xFFFFF000)
              / PAGE_SIZE) (ptIndexOf m.cr2) &&& 0x1 = 0)
    (hp : ¬ pA m.pCount = 0) :
    handle_fault kA pA r m
      = { m := { m with
            mem := wr m.mem
                     ((m.mem (dirAddr / PAGE_SIZE) (pdIndexOf m.cr2) &&& 0xFFFFF000)
                       / PAGE_SIZE)
                     (ptIndexOf m.cr2) (pA m.pCount * PAGE_SIZE ||| 0x3),
            pCount := m.pCount + 1 },
          outcome := .handled } := by
  unfold handle_fault
  rw [hc]
  simp only [hpte, if_neg hhit, if_true, if_neg hp]

theorem handle_fault_hit_fail (kA pA : Nat → Nat) (r : Nat) (m : Mach) (dirAddr : Nat)
    (hc : m.current = some dirAddr)
    (hhit : ¬ m.mem (dirAddr / PAGE_SIZE) (pdIndexOf m.cr2) &&& 0x1 = 0)
    (hpte : m.mem ((m.mem (dirAddr / PAGE_SIZE) (pdIndexOf m.cr2) &&& 0xFFFFF000)
              / PAGE_SIZE) (ptIndexOf m.cr2) &&& 0x1 = 0)
    (hp : pA m.pCount = 0) :
    handle_fault kA pA r m
      = { m := { m with pCount := m.pCount + 1 }, outcome := .procAllocFailed } := by
  unfold handle_fault
  rw [hc]
  simp only [hpte, if_neg hhit, if_true, hp, if_pos rfl]

theorem handle_fault_hit_present (kA pA : Nat → Nat) (r : Nat) (m : Mach) (dirAddr : Nat)
    (hc : m.current = some dirAddr)
    (hhit : ¬ m.mem (dirAddr / PAGE_SIZE) (pdIndexOf m.cr2) &&& 0x1 = 0)
    (hpte : ¬ m.mem ((m.mem (dirAddr / PAGE_SIZE) (pdIndexOf m.cr2) &&& 0xFFFFF000)
              / PAGE_SIZE) (ptIndexOf m.cr2) &&& 0x1 = 0) :
    handle_fault kA pA r m = { m := m, outcome := .handled } := by
  unfold handle_fault
  rw [hc]
  simp only [if_neg hhit, if_neg hpte]

/-! ### Result characterizations -/

/-- Successful construction: the final memory, entry by entry. -/
theorem constructPageTable_spec (kAlloc : Nat → Nat) (m : Mach) (dirF tblF : Nat)
    (hd : kAlloc m.kCount = dirF) (ht : kAlloc (m.kCount + 1) = tblF)
    (ht0 : ¬ tblF = 0) (hne : ¬ dirF = tblF) :
    (constructPageTable kAlloc m).page_directory = 4096 * dirF
    ∧ (constructPageTable kAlloc m).earlyReturn = false
    ∧ (constructPageTable kAlloc m).m.kCount = m.kCount + 2
    ∧ ∀ f i, (constructPageTable kAlloc m).m.mem f i =
        if f = tblF ∧ i < 1024 then 4096 * i + 3
        else if f = dirF ∧ i = 0 then 4096 * tblF + 3
        else if f = dirF ∧ i = 1023 then 4096 * dirF + 3
        else if f = dirF ∧ i < 1024 then 2
        else m.mem f i := by
  have hdiv1 : dirF * PAGE_SIZE / PAGE_SIZE = dirF := by unfold PAGE_SIZE; omega
  have hdiv2 : tblF * PAGE_SIZE / PAGE_SIZE = tblF := by unfold PAGE_SIZE; omega
  unfold constructPageTable
  rw [hd, ht, if_neg ht0]
  simp only [hdiv1, hdiv2, ENTRIES_PER_PAGE]
  refine ⟨by unfold PAGE_SIZE; ring, by trivial, by trivial, fun f i => ?_⟩
  rw [wr_spec, writeFrom_spec, wr_spec, idFill_spec, writeFrom_spec]
  have hv1 : dirF * PAGE_SIZE ||| 0x3 = 4096 * dirF + 3 := page_or3 dirF
  have hv2 : tblF * PAGE_SIZE ||| 0x3 = 4096 * tblF + 3 := page_or3 tblF
  have hv3 : (0 + (i - 0) * PAGE_SIZE) ||| 0x3 = 4096 * i + 3 := by
    rw [Nat.zero_add, Nat.sub_zero]; exact page_or3 i
  rw [hv1, hv2, hv3]
  split_ifs <;> first | rfl | (exfalso; omega)

/-- Failed construction (first-page-table allocation returns the sentinel):
the early return leaves the cleared directory and nothing else. -/
theorem constructPageTable_fail_spec (kAlloc : Nat → Nat) (m : Mach) (dirF : Nat)
    (hd : kAlloc m.kCount = dirF) (ht : kAlloc (m.kCount + 1) = 0) :
    (constructPageTable kAlloc m).page_directory = 4096 * dirF
    ∧ (constructPageTable kAlloc m).earlyReturn = true
    ∧ (constructPageTable kAlloc m).m.kCount = m.kCount + 2
    ∧ ∀ f i, (constructPageTable kAlloc m).m.mem f i =
        if f = dirF ∧ i < 1024 then 0 else m.mem f i := by
  have hdiv1 : dirF * PAGE_SIZE / PAGE_SIZE = dirF := by unfold PAGE_SIZE; omega
  unfold constructPageTable
  rw [hd, ht, if_pos rfl]
  simp only [hdiv1, ENTRIES_PER_PAGE]
  refine ⟨by unfold PAGE_SIZE; ring, by trivial, by trivial, fun f i => ?_⟩
  rw [writeFrom_spec]
  split_ifs <;> first | rfl | (exfalso; omega)

/-- The directory-miss path of handle_fault under a well-behaved kernel
pool (a fresh, nonzero frame k distinct from the directory frame, below
2^20 so its physical address fits the 32-bit entry): the directory entry
at the faulting directory index is set to the new table's address plus
present+writable; through the recursive window all 1024 words of frame k
are zeroed; then the word at the faulting table index is set to the
process-pool frame's address plus present+writable.  Exactly one frame is
taken from each pool and the handler reports the fault handled. -/
theorem handle_fault_miss_result (kA pA : Nat → Nat) (r : Nat) (m : Mach) (df : Nat)
    (hcur : m.current = some (4096 * df))
    (hcr3 : m.cr3 = 4096 * df)
    (hdf : df < 1048576)
    (hk20 : kA m.kCount < 1048576)
    (hk0 : ¬ kA m.kCount = 0)
    (hkdf : ¬ kA m.kCount = df)
    (hrec : m.mem df 1023 = 4096 * df + 3)
    (hmiss : m.mem df (pdIndexOf m.cr2) % 2 = 0) :
    (handle_fault kA pA r m).outcome = .handled
    ∧ (handle_fault kA pA r m).m.kCount = m.kCount + 1
    ∧ (handle_fault kA pA r m).m.pCount = m.pCount + 1
    ∧ (handle_fault kA pA r m).m.cr2 = m.cr2
    ∧ (handle_fault kA pA r m).m.cr3 = m.cr3
    ∧ (handle_fault kA pA r m).m.current = m.current
    ∧ ∀ f i, (handle_fault kA pA r m).m.mem f i =
        if f = kA m.kCount ∧ i = ptIndexOf m.cr2 then 4096 * pA m.pCount + 3
        else if f = kA m.kCount ∧ i < 1024 then 0
        else if f = df ∧ i = pdIndexOf m.cr2 then 4096 * kA m.kCount + 3
        else m.mem f i := by
  have hdiv : 4096 * df / PAGE_SIZE = df := by unfold PAGE_SIZE; omega
  have hmiss' : m.mem (4096 * df / PAGE_SIZE) (pdIndexOf m.cr2) &&& 0x1 = 0 := by
    rw [hdiv, show (0x1 : Nat) = 1 from rfl, Nat.and_one_is_mod, hmiss]
  have hpdi1023 : ¬ pdIndexOf m.cr2 = 1023 := by
    intro h
    rw [h, hrec] at hmiss
    omega
  rw [handle_fault_miss kA pA r m (4096 * df) hcur hmiss' hk0]
  rw [FaultResult_outcome, FaultResult_m, Mach_kCount, Mach_pCount, Mach_cr2,
    Mach_cr3, Mach_current, Mach_mem]
  refine ⟨rfl, rfl, rfl, rfl, rfl, rfl, fun f i => ?_⟩
  simp only [hdiv, hcr3]
  set pdi := pdIndexOf m.cr2 with hpdi
  set pti := ptIndexOf m.cr2 with hpti
  set k := kA m.kCount with hk
  set p := pA m.pCount with hp
  have hkmod : k % 1048576 = k := Nat.mod_eq_of_lt hk20
  have hdfmod : df % 1048576 = df := Nat.mod_eq_of_lt hdf
  set mem2 := wr m.mem df pdi (k * PAGE_SIZE ||| 0x3) with hmem2
  have hm2 : ∀ f' i', mem2 f' i'
      = if f' = df ∧ i' = pdi then 4096 * k + 3 else m.mem f' i' := by
    intro f' i'
    rw [hmem2, wr_spec, page_or3]
  have hrec2 : mem2 df 1023 = 4096 * df + 3 := by
    rw [hm2, if_neg (by rintro ⟨_, h2⟩; exact hpdi1023 h2.symm), hrec]
  have hpde2 : mem2 df pdi = 4096 * k + 3 := by
    rw [hm2, if_pos ⟨rfl, rfl⟩]
  have hkd : ¬ k % 1048576 = df := by rw [hkmod]; exact hkdf
  have hwin : (0xFFC00000 : Nat) ||| (pdi <<< 12) = 0xFFC00000 + 4096 * pdi :=
    winBase_eq pdi (pdIndexOf_lt m.cr2)
  rw [hwin]
  have hz := zeroNewTable_spec mem2 df pdi k hdf (pdIndexOf_lt m.cr2) hkd hrec2 hpde2
    ENTRIES_PER_PAGE (by unfold ENTRIES_PER_PAGE; omega)
  set mem3 := zeroNewTable mem2 df (0xFFC00000 + 4096 * pdi) ENTRIES_PER_PAGE with hmem3
  have hm3 : ∀ f' i', mem3 f' i'
      = if f' = k ∧ i' < 1024 then 0 else mem2 f' i' := by
    intro f' i'
    rw [hz f' i', hkmod]
    rfl
  obtain ⟨hwd1, hwd2, hwd3⟩ := win_decode pdi (4 * pti) (pdIndexOf_lt m.cr2)
    (by have := ptIndexOf_lt m.cr2; omega)
  have hrec3 : mem3 df (pdIndexOf (0xFFC00000 + 4096 * pdi + 4 * pti))
      = 4096 * df + 3 := by
    rw [hwd1, hm3, if_neg (by rintro ⟨h1, _⟩; exact hkdf h1.symm), hrec2]
  have hpte3 : mem3 (df % 1048576) (ptIndexOf (0xFFC00000 + 4096 * pdi + 4 * pti))
      = 4096 * k + 3 := by
    rw [hwd2, hdfmod, hm3, if_neg (by rintro ⟨h1, _⟩; exact hkdf h1.symm), hpde2]
  rw [vwr_mapped mem3 df (0xFFC00000 + 4096 * pdi + 4 * pti)
    (PAGE_SIZE * p ||| 0x3) df k hrec3 hpte3, wr_spec]
  have hwd4 : (0xFFC00000 + 4096 * pdi + 4 * pti) % 4096 / 4 = pti := by
    have h1 : pti < 1024 := ptIndexOf_lt m.cr2
    have h2 : pdi < 1024 := pdIndexOf_lt m.cr2
    omega
  have hval : PAGE_SIZE * p ||| 0x3 = 4096 * p + 3 := by
    rw [Nat.mul_comm]; exact page_or3 p
  rw [hwd4, hkmod, hval, hm3 f i, hm2 f i]

/-! ### Claim theorems -/

/-- C4: handle_fault reads the faulting virtual address from the register
interface (CR2) and not from the saved trap context: the REGS argument has
no effect on the result whatsoever, and the decoded directory index is
bits 22-31 (value / 2^22 mod 2^10) and the table index bits 12-21
(value / 2^12 mod 2^10) of that address, pdIndexOf and ptIndexOf being the
decodings used by handle_fault. -/
theorem c4_fault_address_decode (kA pA : Nat → Nat) (r r' : Nat) (m : Mach) (a : Nat) :
    handle_fault kA pA r m = handle_fault kA pA r' m
    ∧ pdIndexOf a = a / 4194304 % 1024
    ∧ ptIndexOf a = a / 4096 % 1024 :=
  ⟨rfl, pdIndexOf_eq a, ptIndexOf_eq a⟩

/-- C5: a fault with no active page table is a fatal configuration error:
handle_fault takes the diagnostic return at line 107 (FaultOutcome.noTable)
and the machine is returned completely unchanged — no allocation is made
and no entry is touched, i.e. no attempt is made to resolve the fault. -/
theorem c5_no_active_table (kA pA : Nat → Nat) (r : Nat) (m : Mach)
    (h : m.current = none) :
    handle_fault kA pA r m = { m := m, outcome := .noTable } :=
  handle_fault_noTable kA pA r m h

theorem c5_witness :
    handle_fault kPool7 pPool9 0 mZero = { m := mZero, outcome := .noTable } :=
  c5_no_active_table kPool7 pPool9 0 mZero rfl

/-- C7: on a directory miss, if the kernel-reserved pool returns the
failure sentinel 0, handle_fault aborts through the early return at
line 143: physical memory is left completely unchanged (no directory
entry, no table entry, nothing), and no process-pool allocation is made
(only the one failed kernel-pool request is consumed). -/
theorem c7_kernel_exhaustion_aborts (kA pA : Nat → Nat) (r : Nat) (m : Mach) (df : Nat)
    (hcur : m.current = some (4096 * df))
    (hmiss : m.mem df (pdIndexOf m.cr2) % 2 = 0)
    (hk : kA m.kCount = 0) :
    (handle_fault kA pA r m).outcome = .kernelAllocFailed
    ∧ (handle_fault kA pA r m).m.mem = m.mem
    ∧ (handle_fault kA pA r m).m.kCount = m.kCount + 1
    ∧ (handle_fault kA pA r m).m.pCount = m.pCount := by
  have hdiv : 4096 * df / PAGE_SIZE = df := by unfold PAGE_SIZE; omega
  have hmiss' : m.mem (4096 * df / PAGE_SIZE) (pdIndexOf m.cr2) &&& 0x1 = 0 := by
    rw [hdiv, show (0x1 : Nat) = 1 from rfl, Nat.and_one_is_mod, hmiss]
  rw [handle_fault_missFail kA pA r m (4096 * df) hcur hmiss' hk]
  rw [FaultResult_outcome, FaultResult_m, Mach_mem, Mach_kCount, Mach_pCount]
  exact ⟨rfl, rfl, rfl, rfl⟩

theorem c7_witness :
    (handle_fault poolFail pPool9 0 mA).outcome = .kernelAllocFailed
    ∧ (handle_fault poolFail pPool9 0 mA).m.mem = mA.mem
    ∧ (handle_fault poolFail pPool9 0 mA).m.kCount = mA.kCount + 1
    ∧ (handle_fault poolFail pPool9 0 mA).m.pCount = mA.pCount :=
  c7_kernel_exhaustion_aborts poolFail pPool9 0 mA 2 rfl (by decide) rfl

/-- C1: a directory-miss fault (present bit of the decoded directory entry
clear), with the table loaded and its recursive slot intact and the kernel
pool returning a fresh usable frame k: handle_fault takes exactly one
frame from the kernel pool and one from the process pool, installs the new
table's physical address 4096 * k with present+writable flags (+3) into
the directory entry at the directory index, zeroes all 1024 entries of the
new table (reached through the recursive-mapping window — the vwr writes
against the fixed 0xFFC00000 range in the definition of handle_fault),
installs the process frame's physical address with present+writable into
the new table's entry at the table index, and returns with the fault
reported handled. -/
theorem c1_directory_miss_path (kA pA : Nat → Nat) (r : Nat) (m : Mach)
    (df k p pdi pti : Nat)
    (hcur : m.current = some (4096 * df))
    (hcr3 : m.cr3 = 4096 * df)
    (hdf : df < 1048576)
    (hpdi : pdi = pdIndexOf m.cr2)
    (hpti : pti = ptIndexOf m.cr2)
    (hk : k = kA m.kCount)
    (hp : p = pA m.pCount)
    (hk20 : k < 1048576) (hk0 : ¬ k = 0) (hkdf : ¬ k = df)
    (hrec : m.mem df 1023 = 4096 * df + 3)
    (hmiss : m.mem df pdi % 2 = 0) :
    (handle_fault kA pA r m).outcome = .handled
    ∧ (handle_fault kA pA r m).m.kCount = m.kCount + 1
    ∧ (handle_fault kA pA r m).m.pCount = m.pCount + 1
    ∧ (handle_fault kA pA r m).m.mem df pdi = 4096 * k + 3
    ∧ (∀ i, i < 1024 → ¬ i = pti → (handle_fault kA pA r m).m.mem k i = 0)
    ∧ (handle_fault kA pA r m).m.mem k pti = 4096 * p + 3 := by
  subst hpdi hpti hk hp
  obtain ⟨ho, hkc, hpc, _, _, _, hmem⟩ :=
    handle_fault_miss_result kA pA r m df hcur hcr3 hdf hk20 hk0 hkdf hrec hmiss
  refine ⟨ho, hkc, hpc, ?_, ?_, ?_⟩
  · rw [hmem df (pdIndexOf m.cr2),
      if_neg (by rintro ⟨h1, _⟩; exact hkdf h1.symm),
      if_neg (by rintro ⟨h1, _⟩; exact hkdf h1.symm),
      if_pos ⟨rfl, rfl⟩]
  · intro i hilt hipti
    rw [hmem (kA m.kCount) i,
      if_neg (by rintro ⟨_, h2⟩; exact hipti h2),
      if_pos ⟨rfl, hilt⟩]
  · rw [hmem (kA m.kCount) (ptIndexOf m.cr2), if_pos ⟨rfl, rfl⟩]

theorem c1_witness :
    (handle_fault kPool7 pPool9 0 mA).outcome = .handled
    ∧ (handle_fault kPool7 pPool9 0 mA).m.kCount = mA.kCount + 1
    ∧ (handle_fault kPool7 pPool9 0 mA).m.pCount = mA.pCount + 1
    ∧ (handle_fault kPool7 pPool9 0 mA).m.mem 2 3 = 4096 * 7 + 3
    ∧ (∀ i, i < 1024 → ¬ i = 1 → (handle_fault kPool7 pPool9 0 mA).m.mem 7 i = 0)
    ∧ (handle_fault kPool7 pPool9 0 mA).m.mem 7 1 = 4096 * 9 + 3 :=
  c1_directory_miss_path kPool7 pPool9 0 mA 2 7 9 3 1 rfl rfl (by decide)
    (by decide) (by decide) rfl rfl (by decide) (by decide) (by decide)
    (by decide) (by decide)

/-- C10: in the directory-miss path the process-pool allocation for the
faulting page (line 162) is installed without any check against the
failure sentinel: when the process pool returns 0 the handler still
installs the entry value 0 * PAGE_SIZE + 3 = 3 — a present+writable
mapping of physical address 0 — at the table index of the new table, and
still reports the fault handled. -/
theorem c10_unchecked_process_alloc (kA pA : Nat → Nat) (r : Nat) (m : Mach)
    (df k pdi pti : Nat)
    (hcur : m.current = some (4096 * df))
    (hcr3 : m.cr3 = 4096 * df)
    (hdf : df < 1048576)
    (hpdi : pdi = pdIndexOf m.cr2)
    (hpti : pti = ptIndexOf m.cr2)
    (hk : k = kA m.kCount)
    (hk20 : k < 1048576) (hk0 : ¬ k = 0) (hkdf : ¬ k = df)
    (hrec : m.mem df 1023 = 4096 * df + 3)
    (hmiss : m.mem df pdi % 2 = 0)
    (hp0 : pA m.pCount = 0) :
    (handle_fault kA pA r m).outcome = .handled
    ∧ (handle_fault kA pA r m).m.mem k pti = 3 := by
  subst hpdi hpti hk
  obtain ⟨ho, _, _, _, _, _, hmem⟩ :=
    handle_fault_miss_result kA pA r m df hcur hcr3 hdf hk20 hk0 hkdf hrec hmiss
  refine ⟨ho, ?_⟩
  rw [hmem (kA m.kCount) (ptIndexOf m.cr2), if_pos ⟨rfl, rfl⟩, hp0]

theorem c10_witness :
    (handle_fault kPool7 poolFail 0 mA).outcome = .handled
    ∧ (handle_fault kPool7 poolFail 0 mA).m.mem 7 1 = 3 :=
  c10_unchecked_process_alloc kPool7 poolFail 0 mA 2 7 3 1 rfl rfl (by decide)
    (by decide) (by decide) rfl (by decide) (by decide) (by decide)
    (by decide) (by decide) rfl

theorem load_ne_mem (p : Nat) (M : Mach) (hp : ¬ p = 0) : (load p M).mem = M.mem := by
  unfold load
  rw [if_neg hp, Mach_mem]

theorem load_ne_cr3 (p : Nat) (M : Mach) (hp : ¬ p = 0) : (load p M).cr3 = p := by
  unfold load
  rw [if_neg hp, Mach_cr3]

theorem load_ne_current (p : Nat) (M : Mach) (hp : ¬ p = 0) :
    (load p M).current = some p := by
  unfold load
  rw [if_neg hp, Mach_current]

theorem enable_paging_mem (M : Mach) : (enable_paging M).mem = M.mem := by
  unfold enable_paging
  rw [Mach_mem]

theorem enable_paging_cr3 (M : Mach) : (enable_paging M).cr3 = M.cr3 := by
  unfold enable_paging
  rw [Mach_cr3]

/-- C2: after a successful construction, entry i of the first page table
holds the identity mapping 4096 * i with present+writable flags (+3) for
every i < 1024, directory slot 0 holds the first table's physical address
with present+writable, and — after loading the table and enabling paging —
the hardware walk resolves every address of the initial 4 MiB region
(v < 2^22) to itself with no fault (some v; both levels present+writable
by the entry values established in the first two conjuncts). -/
theorem c2_initial_identity_map (kAlloc : Nat → Nat) (m : Mach) (dirF tblF : Nat)
    (hd : kAlloc m.kCount = dirF) (ht : kAlloc (m.kCount + 1) = tblF)
    (hd0 : ¬ dirF = 0) (ht0 : ¬ tblF = 0) (hne : ¬ dirF = tblF)
    (htlt : tblF < 1048576) :
    (∀ i, i < 1024 → (constructPageTable kAlloc m).m.mem tblF i = 4096 * i + 3)
    ∧ (constructPageTable kAlloc m).m.mem dirF 0 = 4096 * tblF + 3
    ∧ (∀ v, v < 4194304 →
        translateAddr
          (enable_paging (load (constructPageTable kAlloc m).page_directory
              (constructPageTable kAlloc m).m)).mem
          ((enable_paging (load (constructPageTable kAlloc m).page_directory
              (constructPageTable kAlloc m).m)).cr3 / PAGE_SIZE)
          v
        = some v) := by
  obtain ⟨hpd, _, _, hmem⟩ := constructPageTable_spec kAlloc m dirF tblF hd ht ht0 hne
  have hpde : (constructPageTable kAlloc m).m.mem dirF 0 = 4096 * tblF + 3 := by
    rw [hmem dirF 0, if_neg (by rintro ⟨h1, _⟩; exact hne h1),
      if_pos ⟨rfl, rfl⟩]
  refine ⟨fun i hi => ?_, hpde, fun v hv => ?_⟩
  · rw [hmem tblF i, if_pos ⟨rfl, hi⟩]
  · have hpd0 : ¬ (constructPageTable kAlloc m).page_directory = 0 := by
      rw [hpd]
      intro h
      exact hd0 (by omega)
    rw [enable_paging_mem, enable_paging_cr3,
      load_ne_mem _ _ hpd0, load_ne_cr3 _ _ hpd0, hpd]
    have hdiv : 4096 * dirF / PAGE_SIZE = dirF := by unfold PAGE_SIZE; omega
    rw [hdiv]
    unfold translateAddr
    have hpdiv : pdIndexOf v = 0 := by rw [pdIndexOf_eq]; omega
    have hptiv : ptIndexOf v = v / 4096 := by rw [ptIndexOf_eq]; omega
    rw [hpdiv, hptiv, hpde]
    have hmask1 : (4096 * tblF + 3) &&& 0xFFFFF000 = 4096 * tblF := by
      rw [and_high_mask tblF 3 (by omega), Nat.mod_eq_of_lt htlt]
    have hdiv2 : 4096 * tblF / PAGE_SIZE = tblF := by unfold PAGE_SIZE; omega
    have hpte : (constructPageTable kAlloc m).m.mem tblF (v / 4096)
        = 4096 * (v / 4096) + 3 := by
      rw [hmem tblF (v / 4096), if_pos ⟨rfl, by omega⟩]
    have hmask2 : (4096 * (v / 4096) + 3) &&& 0xFFFFF000 = 4096 * (v / 4096) := by
      rw [and_high_mask (v / 4096) 3 (by omega),
        Nat.mod_eq_of_lt (by omega : v / 4096 < 1048576)]
    simp only [entry_present, hmask1, hdiv2, hpte, hmask2, if_true]
    congr 1
    unfold PAGE_SIZE
    omega

theorem c2_witness :
    (∀ i, i < 1024 → (constructPageTable kPool57 mZero).m.mem 7 i
        = 4096 * i + 3)
    ∧ (constructPageTable kPool57 mZero).m.mem 5 0 = 4096 * 7 + 3
    ∧ (∀ v, v < 4194304 →
        translateAddr
          (enable_paging (load (constructPageTable kPool57 mZero).page_directory
              (constructPageTable kPool57 mZero).m)).mem
          ((enable_paging (load (constructPageTable kPool57 mZero).page_directory
              (constructPageTable kPool57 mZero).m)).cr3 / PAGE_SIZE)
          v
        = some v) :=
  c2_initial_identity_map kPool57 mZero 5 7 rfl rfl (by decide)
    (by decide) (by decide) (by decide)

/-- C6 counterexample: the claim that a failed frame allocation makes
construction abort fails on the directory-frame allocation.  With a kernel
pool whose first request returns the sentinel 0 and whose second returns
frame 7, the constructor does not abort: the early return is not taken
(earlyReturn = false), both allocations are consumed (kCount = 2), the
page_directory pointer is null (0), and the constructor has proceeded to
install the first-table entry — physical address 4096 * 7 with
present+writable — through the null pointer, i.e. into frame 0. -/
theorem c6_counterexample :
    (constructPageTable kPoolFirstFail mZero).page_directory = 0
    ∧ (constructPageTable kPoolFirstFail mZero).earlyReturn = false
    ∧ (constructPageTable kPoolFirstFail mZero).m.mem 0 0 = 4096 * 7 + 3
    ∧ (constructPageTable kPoolFirstFail mZero).m.kCount = 2 := by
  obtain ⟨hpd, hearly, hkc, hmem⟩ :=
    constructPageTable_spec kPoolFirstFail mZero 0 7 rfl rfl (by decide) (by decide)
  refine ⟨by rw [hpd], hearly, ?_, by rw [hkc]; rfl⟩
  rw [hmem 0 0, if_neg (by rintro ⟨h1, _⟩; exact absurd h1 (by decide)),
    if_pos ⟨rfl, rfl⟩]

/-- C6 amended: only the first-page-table allocation is checked.  (a) If it
fails, the constructor returns early, leaving the directory frame
allocated and zeroed and no other memory touched — the directory is
partially built, with no distinguishable failure mark beyond that.
(b) The directory-frame allocation is not checked: if it returns the
sentinel while the table allocation succeeds, construction proceeds to
completion with the null page_directory (address 0).  (c) Only load()
refuses a null directory, leaving the machine unchanged. -/
theorem c6_amended_construction_failure (kAlloc : Nat → Nat) (m : Mach) (dirF : Nat)
    (hd : kAlloc m.kCount = dirF) (ht : kAlloc (m.kCount + 1) = 0) :
    (constructPageTable kAlloc m).earlyReturn = true
    ∧ (constructPageTable kAlloc m).page_directory = 4096 * dirF
    ∧ (∀ i, i < 1024 → (constructPageTable kAlloc m).m.mem dirF i = 0)
    ∧ (∀ f i, ¬ f = dirF → (constructPageTable kAlloc m).m.mem f i = m.mem f i)
    ∧ (∀ (kA2 : Nat → Nat) (m2 : Mach) (t : Nat),
        kA2 m2.kCount = 0 → kA2 (m2.kCount + 1) = t → ¬ t = 0 →
        (constructPageTable kA2 m2).page_directory = 0
        ∧ (constructPageTable kA2 m2).earlyReturn = false)
    ∧ (∀ m3 : Mach, load 0 m3 = m3) := by
  obtain ⟨hpd, hearly, _, hmem⟩ := constructPageTable_fail_spec kAlloc m dirF hd ht
  refine ⟨hearly, hpd, fun i hi => ?_, fun f i hf => ?_,
    fun kA2 m2 t h0 ht2 ht0 => ?_, fun m3 => ?_⟩
  · rw [hmem dirF i, if_pos ⟨rfl, hi⟩]
  · rw [hmem f i, if_neg (by rintro ⟨h1, _⟩; exact hf h1)]
  · obtain ⟨hpd2, hearly2, _, _⟩ :=
      constructPageTable_spec kA2 m2 0 t h0 ht2 ht0 (fun h => ht0 h.symm)
    exact ⟨by rw [hpd2], hearly2⟩
  · unfold load
    rw [if_pos rfl]

theorem c6_amended_witness :
    (constructPageTable kPoolSecondFail mZero).earlyReturn = true
    ∧ (constructPageTable kPoolSecondFail mZero).page_directory = 4096 * 5
    ∧ (∀ i, i < 1024 → (constructPageTable kPoolSecondFail mZero).m.mem 5 i = 0)
    ∧ (∀ f i, ¬ f = 5 → (constructPageTable kPoolSecondFail mZero).m.mem f i
        = mZero.mem f i)
    ∧ (∀ (kA2 : Nat → Nat) (m2 : Mach) (t : Nat),
        kA2 m2.kCount = 0 → kA2 (m2.kCount + 1) = t → ¬ t = 0 →
        (constructPageTable kA2 m2).page_directory = 0
        ∧ (constructPageTable kA2 m2).earlyReturn = false)
    ∧ (∀ m3 : Mach, load 0 m3 = m3) :=
  c6_amended_construction_failure kPoolSecondFail mZero 5 rfl rfl

theorem goodEntry_zero : goodEntry 0 := by decide

theorem goodEntry_two : goodEntry 0x2 := by decide

theorem goodEntry_page (x : Nat) : goodEntry (4096 * x + 3) := by
  unfold goodEntry
  omega

theorem goodEntry_or3 (q : Nat) : goodEntry (q * PAGE_SIZE ||| 0x3) := by
  rw [page_or3]
  exact goodEntry_page q

theorem goodEntry_or3' (q : Nat) : goodEntry (PAGE_SIZE * q ||| 0x3) := by
  rw [Nat.mul_comm]
  exact goodEntry_or3 q

theorem goodEntry_idVal (i : Nat) : goodEntry ((0 + (i - 0) * PAGE_SIZE) ||| 0x3) := by
  rw [Nat.zero_add, Nat.sub_zero]
  exact goodEntry_or3 i

theorem wr_good (mem : PMem) (f i v : Nat)
    (hm : ∀ f' i', goodEntry (mem f' i')) (hv : goodEntry v) :
    ∀ f' i', goodEntry (wr mem f i v f' i') := by
  intro f' i'
  rw [wr_spec]
  split_ifs
  · exact hv
  · exact hm f' i'

theorem vwr_good (mem : PMem) (df va v : Nat)
    (hm : ∀ f' i', goodEntry (mem f' i')) (hv : goodEntry v) :
    ∀ f' i', goodEntry (vwr mem df va v f' i') := by
  intro f' i'
  unfold vwr
  cases h : translateAddr mem df va with
  | none => exact hm f' i'
  | some p => exact wr_good mem (p / PAGE_SIZE) (p % PAGE_SIZE / 4) v hm hv f' i'

theorem zeroNewTable_good (mem : PMem) (df base : Nat)
    (hm : ∀ f i, goodEntry (mem f i)) :
    ∀ n f i, goodEntry (zeroNewTable mem df base n f i) := by
  intro n
  induction n with
  | zero => exact hm
  | succ n ih =>
    intro f i
    show goodEntry (vwr (zeroNewTable mem df base n) df (base + 4 * n) 0 f i)
    exact vwr_good _ _ _ _ ih goodEntry_zero f i

/-- C9: the fixed entry bit convention — privilege bit (bit 2) always clear
(supervisor-only) and present entries (bit 0) always writable (bit 1) — is
preserved by construction and by every path of fault handling: starting
from a memory all of whose words obey it, every word after
constructPageTable and after handle_fault still obeys it.  The values ever
written are 0 and 0x2 (absent, supervisor, no user bit) and
frame-address + 0x3 (present+writable, bits 2-11 zero by page alignment):
no user-accessible and no present-but-read-only entry is ever produced. -/
theorem c9_entry_bit_convention (kA pA : Nat → Nat) (r : Nat) (m : Mach)
    (hg : ∀ f i, goodEntry (m.mem f i)) :
    (∀ f i, goodEntry ((constructPageTable kA m).m.mem f i))
    ∧ (∀ f i, goodEntry ((handle_fault kA pA r m).m.mem f i)) := by
  constructor
  · intro f i
    by_cases hfail : kA (m.kCount + 1) = 0
    · obtain ⟨_, _, _, hmem⟩ :=
        constructPageTable_fail_spec kA m (kA m.kCount) rfl hfail
      rw [hmem f i]
      split_ifs
      · exact goodEntry_zero
      · exact hg f i
    · unfold constructPageTable
      rw [if_neg hfail]
      simp only [mulPS_div, ENTRIES_PER_PAGE, CtorResult_m, Mach_mem]
      rw [wr_spec, writeFrom_spec, wr_spec, idFill_spec, writeFrom_spec]
      split_ifs
      · exact goodEntry_or3 (kA m.kCount)
      · exact goodEntry_two
      · exact goodEntry_or3 (kA (m.kCount + 1))
      · exact goodEntry_idVal i
      · exact goodEntry_zero
      · exact hg f i
  · intro f i
    cases hc : m.current with
    | none =>
      rw [handle_fault_noTable kA pA r m hc, FaultResult_m]
      exact hg f i
    | some dirAddr =>
      by_cases hmiss : m.mem (dirAddr / PAGE_SIZE) (pdIndexOf m.cr2) &&& 0x1 = 0
      · by_cases hk0 : kA m.kCount = 0
        · rw [handle_fault_missFail kA pA r m dirAddr hc hmiss hk0,
            FaultResult_m, Mach_mem]
          exact hg f i
        · rw [handle_fault_miss kA pA r m dirAddr hc hmiss hk0,
            FaultResult_m, Mach_mem]
          apply vwr_good
          · apply zeroNewTable_good
            exact wr_good m.mem _ _ _ hg (goodEntry_or3 (kA m.kCount))
          · exact goodEntry_or3' (pA m.pCount)
      · by_cases hpte : m.mem ((m.mem (dirAddr / PAGE_SIZE) (pdIndexOf m.cr2)
            &&& 0xFFFFF000) / PAGE_SIZE) (ptIndexOf m.cr2) &&& 0x1 = 0
        · by_cases hp0 : pA m.pCount = 0
          · rw [handle_fault_hit_fail kA pA r m dirAddr hc hmiss hpte hp0,
              FaultResult_m, Mach_mem]
            exact hg f i
          · rw [handle_fault_hit_alloc kA pA r m dirAddr hc hmiss hpte hp0,
              FaultResult_m, Mach_mem]
            exact wr_good m.mem _ _ _ hg (goodEntry_or3 (pA m.pCount)) f i
        · rw [handle_fault_hit_present kA pA r m dirAddr hc hmiss hpte,
            FaultResult_m]
          exact hg f i

theorem c9_witness :
    (∀ f i, goodEntry ((constructPageTable kPool57 mZero).m.mem f i))
    ∧ (∀ f i, goodEntry ((handle_fault kPool57 pPool9 0 mZero).m.mem f i)) :=
  c9_entry_bit_convention kPool57 pPool9 0 mZero (fun _ _ => goodEntry_zero)

/-- C3: the last directory slot (1023) holds the directory's own physical
address with the 0x3 flags immediately after construction (it is the last
directory write of the constructor, so it holds even under pool
misbehaviour), and no execution of handle_fault — any faulting address,
any kernel or process pool behaviour, including exhaustion and including a
kernel pool that hands back the directory's own frame — ever changes that
slot: on the miss path the slot value itself steers every window write
away from directory word 1023 (see zeroNewTable_pres), and on the hit
path a write could only target directory word 1023 if the entry there
were absent, contradicting the invariant. -/
theorem c3_recursive_slot_stable (kAlloc : Nat → Nat) (mc : Mach) (dirF tblF : Nat)
    (hd : kAlloc mc.kCount = dirF) (ht : kAlloc (mc.kCount + 1) = tblF)
    (ht0 : ¬ tblF = 0) :
    (constructPageTable kAlloc mc).m.mem dirF 1023
      = (constructPageTable kAlloc mc).page_directory ||| 0x3
    ∧ ∀ (kA pA : Nat → Nat) (r : Nat) (m : Mach) (df : Nat),
        m.current = some (4096 * df) → m.cr3 = 4096 * df → df < 1048576 →
        m.mem df 1023 = 4096 * df + 3 →
        (handle_fault kA pA r m).m.mem df 1023 = 4096 * df + 3 := by
  constructor
  · unfold constructPageTable
    rw [hd, ht, if_neg ht0]
    simp only [mulPS_div, ENTRIES_PER_PAGE, CtorResult_m, Mach_mem]
    rw [wr_spec, if_pos ⟨rfl, by norm_num⟩]
  · intro kA pA r m df hcur hcr3 hdf hrec
    have hdiv : 4096 * df / PAGE_SIZE = df := by unfold PAGE_SIZE; omega
    by_cases hmiss : m.mem (4096 * df / PAGE_SIZE) (pdIndexOf m.cr2) &&& 0x1 = 0
    · by_cases hk0 : kA m.kCount = 0
      · rw [handle_fault_missFail kA pA r m (4096 * df) hcur hmiss hk0,
          FaultResult_m, Mach_mem]
        exact hrec
      · rw [handle_fault_miss kA pA r m (4096 * df) hcur hmiss hk0,
          FaultResult_m, Mach_mem, hcr3, hdiv]
        rw [hdiv] at hmiss
        set pdi := pdIndexOf m.cr2 with hpdi
        set pti := ptIndexOf m.cr2 with hpti
        set k := kA m.kCount with hk
        have hpdilt : pdi < 1024 := pdIndexOf_lt m.cr2
        have hptilt : pti < 1024 := ptIndexOf_lt m.cr2
        have hpdi1023 : ¬ pdi = 1023 := by
          intro h
          rw [h, hrec, entry_present] at hmiss
          exact absurd hmiss (by decide)
        rw [winBase_eq pdi hpdilt]
        set mem2 := wr m.mem df pdi (k * PAGE_SIZE ||| 0x3) with hmem2
        have hm2 : ∀ f' i', mem2 f' i'
            = if f' = df ∧ i' = pdi then 4096 * k + 3 else m.mem f' i' := by
          intro f' i'
          rw [hmem2, wr_spec, page_or3]
        have hrec2 : mem2 df 1023 = 4096 * df + 3 := by
          rw [hm2, if_neg (by rintro ⟨_, h2⟩; exact hpdi1023 h2.symm), hrec]
        have hpde2 : mem2 df pdi = 4096 * k + 3 := by
          rw [hm2, if_pos ⟨rfl, rfl⟩]
        obtain ⟨P1, P2, P3⟩ := zeroNewTable_pres mem2 df pdi k hdf (by omega)
          hrec2 hpde2 ENTRIES_PER_PAGE (by unfold ENTRIES_PER_PAGE; omega)
        set Z := zeroNewTable mem2 df (0xFFC00000 + 4096 * pdi) ENTRIES_PER_PAGE with hZ
        obtain ⟨hw1, hw2, hw3⟩ := win_decode pdi (4 * pti) hpdilt (by omega)
        have hrec' : Z df (pdIndexOf (0xFFC00000 + 4096 * pdi + 4 * pti))
            = 4096 * df + 3 := by
          rw [hw1]
          exact P1
        rcases P2 with hp | hp
        · have hk20df : ¬ k % 1048576 = df := by
            intro he
            have h3 := P3 he (by unfold ENTRIES_PER_PAGE; omega)
            rw [hp] at h3
            omega
          have hpte' : Z (df % 1048576) (ptIndexOf (0xFFC00000 + 4096 * pdi + 4 * pti))
              = 4096 * k + 3 := by
            rw [hw2, Nat.mod_eq_of_lt hdf]
            exact hp
          rw [vwr_mapped Z df _ _ df k hrec' hpte', wr_spec,
            if_neg (by rintro ⟨h1, _⟩; exact hk20df h1.symm)]
          exact P1
        · have habs : ¬ Z (df % 1048576)
              (ptIndexOf (0xFFC00000 + 4096 * pdi + 4 * pti)) &&& 0x1 = 1 := by
            rw [hw2, Nat.mod_eq_of_lt hdf, show (0x1 : Nat) = 1 from rfl,
              Nat.and_one_is_mod]
            omega
          rw [vwr_pte_absent Z df _ _ df hrec' habs]
          exact P1
    · by_cases hpte : m.mem ((m.mem (4096 * df / PAGE_SIZE) (pdIndexOf m.cr2)
          &&& 0xFFFFF000) / PAGE_SIZE) (ptIndexOf m.cr2) &&& 0x1 = 0
      · by_cases hp0 : pA m.pCount = 0
        · rw [handle_fault_hit_fail kA pA r m (4096 * df) hcur hmiss hpte hp0,
            FaultResult_m, Mach_mem]
          exact hrec
        · rw [handle_fault_hit_alloc kA pA r m (4096 * df) hcur hmiss hpte hp0,
            FaultResult_m, Mach_mem, wr_spec]
          rw [if_neg ?_]
          · exact hrec
          · rintro ⟨h1, h2⟩
            rw [← h1, ← h2, hrec, entry_present] at hpte
            exact absurd hpte (by decide)
      · rw [handle_fault_hit_present kA pA r m (4096 * df) hcur hmiss hpte,
          FaultResult_m]
        exact hrec

theorem c3_witness :
    (constructPageTable kPool57 mZero).m.mem 5 1023
      = (constructPageTable kPool57 mZero).page_directory ||| 0x3
    ∧ ∀ (kA pA : Nat → Nat) (r : Nat) (m : Mach) (df : Nat),
        m.current = some (4096 * df) → m.cr3 = 4096 * df → df < 1048576 →
        m.mem df 1023 = 4096 * df + 3 →
        (handle_fault kA pA r m).m.mem df 1023 = 4096 * df + 3 :=
  c3_recursive_slot_stable kPool57 mZero 5 7 rfl rfl (by decide)

/-- C8: fault resolution is idempotent.  For a never-before-faulted address
(its hardware walk misses: translateAddr = none), with the table loaded,
the recursive slot intact and the kernel pool well-behaved, if the first
handle_fault run reports the fault handled then a second run on the very
same machine state finds the directory entry and the page-table entry both
present (present bits = 1, last two conjuncts), performs no allocation and
no modification at all — it returns the state unchanged — and again
reports the fault handled. -/
theorem c8_idempotent_resolution (kA pA : Nat → Nat) (r : Nat) (m : Mach) (df : Nat)
    (hcur : m.current = some (4096 * df))
    (hcr3 : m.cr3 = 4096 * df)
    (hdf : df < 1048576)
    (hrec : m.mem df 1023 = 4096 * df + 3)
    (hk20 : kA m.kCount < 1048576)
    (hkdf : ¬ kA m.kCount = df)
    (hunmapped : translateAddr m.mem df m.cr2 = none)
    (hhandled : (handle_fault kA pA r m).outcome = .handled) :
    (handle_fault kA pA r ((handle_fault kA pA r m).m)).m = (handle_fault kA pA r m).m
    ∧ (handle_fault kA pA r ((handle_fault kA pA r m).m)).outcome = .handled
    ∧ (handle_fault kA pA r m).m.mem df (pdIndexOf m.cr2) % 2 = 1
    ∧ (handle_fault kA pA r m).m.mem
        (((handle_fault kA pA r m).m.mem df (pdIndexOf m.cr2) &&& 0xFFFFF000)
          / PAGE_SIZE)
        (ptIndexOf m.cr2) % 2 = 1 := by
  have hdiv : 4096 * df / PAGE_SIZE = df := by unfold PAGE_SIZE; omega
  unfold translateAddr at hunmapped
  by_cases hpde1 : m.mem df (pdIndexOf m.cr2) &&& 0x1 = 1
  · -- the directory entry is present, so the table entry must be absent
    rw [if_pos hpde1] at hunmapped
    by_cases hpteP : m.mem ((m.mem df (pdIndexOf m.cr2) &&& 0xFFFFF000) / PAGE_SIZE)
        (ptIndexOf m.cr2) &&& 0x1 = 1
    · rw [if_pos hpteP] at hunmapped
      exact Option.noConfusion hunmapped
    · have hhit' : ¬ m.mem (4096 * df / PAGE_SIZE) (pdIndexOf m.cr2) &&& 0x1 = 0 := by
        rw [hdiv, hpde1]
        decide
      have hpte0 : m.mem ((m.mem (4096 * df / PAGE_SIZE) (pdIndexOf m.cr2)
          &&& 0xFFFFF000) / PAGE_SIZE) (ptIndexOf m.cr2) &&& 0x1 = 0 := by
        rw [hdiv]
        rw [show (0x1 : Nat) = 1 from rfl, Nat.and_one_is_mod] at hpteP ⊢
        omega
      have hp0 : ¬ pA m.pCount = 0 := by
        intro h0
        rw [handle_fault_hit_fail kA pA r m (4096 * df) hcur hhit' hpte0 h0,
          FaultResult_outcome] at hhandled
        exact absurd hhandled (by decide)
      have h1run := handle_fault_hit_alloc kA pA r m (4096 * df) hcur hhit' hpte0 hp0
      have hM1mem : (handle_fault kA pA r m).m.mem
          = wr m.mem ((m.mem (4096 * df / PAGE_SIZE) (pdIndexOf m.cr2) &&& 0xFFFFF000)
              / PAGE_SIZE) (ptIndexOf m.cr2) (pA m.pCount * PAGE_SIZE ||| 0x3) := by
        rw [h1run, FaultResult_m, Mach_mem]
      rw [hdiv] at hM1mem
      have hM1cr2 : (handle_fault kA pA r m).m.cr2 = m.cr2 := by
        rw [h1run, FaultResult_m, Mach_cr2]
      have hM1cur : (handle_fault kA pA r m).m.current = m.current := by
        rw [h1run, FaultResult_m, Mach_current]
      have hne : ¬ (df = (m.mem df (pdIndexOf m.cr2)
          &&& 0xFFFFF000) / PAGE_SIZE ∧ pdIndexOf m.cr2 = ptIndexOf m.cr2) := by
        rintro ⟨e1, e2⟩
        rw [hdiv] at hpte0
        rw [← e1, ← e2] at hpte0
        rw [hpde1] at hpte0
        exact absurd hpte0 (by decide)
      have hpde1' : (handle_fault kA pA r m).m.mem (4096 * df / PAGE_SIZE)
          (pdIndexOf (handle_fault kA pA r m).m.cr2)
          = m.mem df (pdIndexOf m.cr2) := by
        rw [hM1cr2, hM1mem, wr_spec,
          if_neg (by rintro ⟨e1, e2⟩; rw [hdiv] at e1; exact hne ⟨e1, e2⟩), hdiv]
      have hhit1 : ¬ (handle_fault kA pA r m).m.mem (4096 * df / PAGE_SIZE)
          (pdIndexOf (handle_fault kA pA r m).m.cr2) &&& 0x1 = 0 := by
        rw [hpde1', hpde1]
        decide
      have hpte1 : ¬ (handle_fault kA pA r m).m.mem
          (((handle_fault kA pA r m).m.mem (4096 * df / PAGE_SIZE)
              (pdIndexOf (handle_fault kA pA r m).m.cr2) &&& 0xFFFFF000) / PAGE_SIZE)
          (ptIndexOf (handle_fault kA pA r m).m.cr2) &&& 0x1 = 0 := by
        rw [hpde1', hM1cr2, hM1mem, wr_spec, if_pos ⟨rfl, rfl⟩, page_or3]
        rw [show (0x1 : Nat) = 1 from rfl, Nat.and_one_is_mod]
        omega
      have h2run := handle_fault_hit_present kA pA r ((handle_fault kA pA r m).m)
        (4096 * df) (hM1cur.trans hcur) hhit1 hpte1
      have hq : (handle_fault kA pA r m).m.mem df (pdIndexOf m.cr2)
          = m.mem df (pdIndexOf m.cr2) := by
        rw [hM1mem, wr_spec, if_neg hne]
      refine ⟨?_, ?_, ?_, ?_⟩
      · rw [h2run, FaultResult_m]
      · rw [h2run, FaultResult_outcome]
      · rw [hq]
        rw [show (0x1 : Nat) = 1 from rfl, Nat.and_one_is_mod] at hpde1
        omega
      · rw [hq, hM1mem, wr_spec, if_pos ⟨rfl, rfl⟩, page_or3]
        omega
  · -- the directory entry is absent: the first run is the miss path
    have hpde0 : m.mem df (pdIndexOf m.cr2) % 2 = 0 := by
      rw [show (0x1 : Nat) = 1 from rfl, Nat.and_one_is_mod] at hpde1
      omega
    have hmiss' : m.mem (4096 * df / PAGE_SIZE) (pdIndexOf m.cr2) &&& 0x1 = 0 := by
      rw [hdiv, show (0x1 : Nat) = 1 from rfl, Nat.and_one_is_mod, hpde0]
    have hk0 : ¬ kA m.kCount = 0 := by
      intro h0
      rw [handle_fault_missFail kA pA r m (4096 * df) hcur hmiss' h0,
        FaultResult_outcome] at hhandled
      exact absurd hhandled (by decide)
    obtain ⟨_, _, _, hcr2', hcr3', hcur', hmem1⟩ :=
      handle_fault_miss_result kA pA r m df hcur hcr3 hdf hk20 hk0 hkdf hrec hpde0
    have hpdev : (handle_fault kA pA r m).m.mem df (pdIndexOf m.cr2)
        = 4096 * kA m.kCount + 3 := by
      rw [hmem1 df (pdIndexOf m.cr2),
        if_neg (by rintro ⟨h1, _⟩; exact hkdf h1.symm),
        if_neg (by rintro ⟨h1, _⟩; exact hkdf h1.symm), if_pos ⟨rfl, rfl⟩]
    have hdivk : 4096 * kA m.kCount / PAGE_SIZE = kA m.kCount := by
      unfold PAGE_SIZE
      omega
    have hmaskk : (4096 * kA m.kCount + 3) &&& 0xFFFFF000 = 4096 * kA m.kCount := by
      rw [and_high_mask (kA m.kCount) 3 (by omega), Nat.mod_eq_of_lt hk20]
    have hptev : (handle_fault kA pA r m).m.mem (kA m.kCount) (ptIndexOf m.cr2)
        = 4096 * pA m.pCount + 3 := by
      rw [hmem1 (kA m.kCount) (ptIndexOf m.cr2), if_pos ⟨rfl, rfl⟩]
    have hpdev' : (handle_fault kA pA r m).m.mem (4096 * df / PAGE_SIZE)
        (pdIndexOf (handle_fault kA pA r m).m.cr2) = 4096 * kA m.kCount + 3 := by
      rw [hdiv, hcr2']
      exact hpdev
    have hhit1 : ¬ (handle_fault kA pA r m).m.mem (4096 * df / PAGE_SIZE)
        (pdIndexOf (handle_fault kA pA r m).m.cr2) &&& 0x1 = 0 := by
      rw [hpdev', entry_present]
      decide
    have hpte1 : ¬ (handle_fault kA pA r m).m.mem
        (((handle_fault kA pA r m).m.mem (4096 * df / PAGE_SIZE)
            (pdIndexOf (handle_fault kA pA r m).m.cr2) &&& 0xFFFFF000) / PAGE_SIZE)
        (ptIndexOf (handle_fault kA pA r m).m.cr2) &&& 0x1 = 0 := by
      rw [hpdev', hmaskk, hdivk, hcr2', hptev, entry_present]
      decide
    have h2run := handle_fault_hit_present kA pA r ((handle_fault kA pA r m).m)
      (4096 * df) (hcur'.trans hcur) hhit1 hpte1
    refine ⟨?_, ?_, ?_, ?_⟩
    · rw [h2run, FaultResult_m]
    · rw [h2run, FaultResult_outcome]
    · rw [hpdev]
      omega
    · rw [hpdev, hmaskk, hdivk, hptev]
      omega

theorem c8_witness :
    (handle_fault kPool7 pPool9 0 ((handle_fault kPool7 pPool9 0 mA).m)).m
      = (handle_fault kPool7 pPool9 0 mA).m
    ∧ (handle_fault kPool7 pPool9 0 ((handle_fault kPool7 pPool9 0 mA).m)).outcome
      = .handled
    ∧ (handle_fault kPool7 pPool9 0 mA).m.mem 2 (pdIndexOf mA.cr2) % 2 = 1
    ∧ (handle_fault kPool7 pPool9 0 mA).m.mem
        (((handle_fault kPool7 pPool9 0 mA).m.mem 2 (pdIndexOf mA.cr2)
            &&& 0xFFFFF000) / PAGE_SIZE)
        (ptIndexOf mA.cr2) % 2 = 1 :=
  c8_idempotent_resolution kPool7 pPool9 0 mA 2 rfl rfl (by decide) (by decide)
    (by decide) (by decide) (by decide)
    ((handle_fault_miss_result kPool7 pPool9 0 mA 2 rfl rfl (by decide) (by decide)
      (by decide) (by decide) (by decide) (by decide)).1)
